import Mathlib

/-!
# Ghostwriter front end: summaries, file queue, history log, submit cycle

A shallow embedding of `frontend/src/App.jsx`.

* A JavaScript string is the list of its UTF-16 code units (`JSString`).  Regular
  expressions without the `u` flag, `substring` and `trim` all work on code units, so
  "character" below always means one code unit.
* The React component state is the record `AppState`.  The browser side (object URLs,
  `localStorage`, the log of outgoing requests) is part of the same record, so that every
  effect of a handler is visible in the state it returns.
* `handleGenerate` is an async function.  Its part before the `await` runs at the click; its
  part after the `await` runs when the service responds and reads `files`, `history` and
  `selectedModel` from the render in which the click happened.  Those captured values are the
  record `Continuation`.
-/

namespace Ghostwriter

/-! ## Strings -/

/-- One UTF-16 code unit. -/
abbrev CodeUnit := Nat

/-- A JavaScript string: the sequence of its UTF-16 code units. -/
abbrev JSString := List CodeUnit

/-- UTF-16 encoding of one Unicode scalar value. -/
def encodeChar (c : Char) : List CodeUnit :=
  if c.toNat < 65536 then [c.toNat]
  else [55296 + (c.toNat - 65536) / 1024, 56320 + (c.toNat - 65536) % 1024]

/-- UTF-16 encoding of a list of scalar values. -/
def encodeChars : List Char → JSString
  | [] => []
  | c :: cs => encodeChar c ++ encodeChars cs

/-- The JavaScript string written as the given literal. -/
def js (s : String) : JSString := encodeChars s.data

/-- Markup markers removed by `/[#*`]/g`: `#` (35), `*` (42) and the backquote (96). -/
def isMarkup (c : CodeUnit) : Bool := c == 35 || c == 42 || c == 96

/-- Sentence-ending marks of `/[^.!?]+[.!?]/`: `.` (46), `!` (33), `?` (63). -/
def isMark (c : CodeUnit) : Bool := c == 46 || c == 33 || c == 63

/-- What `String.prototype.trim` strips: ECMAScript WhiteSpace and LineTerminator. -/
def isTrimmable (c : Nat) : Bool :=
  c == 9 || c == 10 || c == 11 || c == 12 || c == 13 || c == 32 || c == 160 ||
  c == 5760 || (8192 ≤ c && c ≤ 8202) || c == 8232 || c == 8233 || c == 8239 ||
  c == 8287 || c == 12288 || c == 65279

/-- The replacement `.replace(/[#*`]/g, '')`: every markup marker is deleted. -/
def removeMarkup (s : JSString) : JSString := s.filter (fun c => !isMarkup c)

/-- Scan for `.replace(/\n+/g, ' ')`; the flag tells whether the previous code unit belonged
to a run of line feeds that has already been replaced. -/
def collapseFrom : Bool → JSString → JSString
  | _, [] => []
  | inRun, c :: cs =>
    if c = 10 then
      if inRun then collapseFrom true cs else 32 :: collapseFrom true cs
    else c :: collapseFrom false cs

/-- The replacement `.replace(/\n+/g, ' ')`: each maximal run of line feeds becomes one space. -/
def collapseNewlines (s : JSString) : JSString := collapseFrom false s

/-- The method `.trim()`. -/
def trim (s : JSString) : JSString :=
  ((s.dropWhile isTrimmable).reverse.dropWhile isTrimmable).reverse

/-- The constant `plainText` of `extractFirstSentence`. -/
def plainText (markdownText : JSString) : JSString :=
  trim (collapseNewlines (removeMarkup markdownText))

/-- An attempt to match `/[^.!?]+[.!?]/` starting exactly at the head of `s`.  The greedy
`[^.!?]+` takes the longest run of non-marks; it must be non-empty and be followed by a mark.
Backtracking to a shorter run cannot help: the code unit after a shorter run is a non-mark. -/
def matchHere (s : JSString) : Option JSString :=
  match s.takeWhile (fun c => !isMark c), s.dropWhile (fun c => !isMark c) with
  | [], _ => none
  | _ :: _, [] => none
  | c :: run, m :: _ => some (c :: run ++ [m])

/-- The call `plainText.match(/[^.!?]+[.!?]/)` (no `g` flag): the match at the leftmost
start position that has one, as `match[0]`, or `none` for `null`. -/
def firstMatch : JSString → Option JSString
  | [] => none
  | c :: cs =>
    match matchHere (c :: cs) with
    | some m => some m
    | none => firstMatch cs

/-- The placeholder literal of the falsy-input guard (Hangul for "no title"). -/
def noTitle : JSString := js "제목 없음"

/-- The ellipsis literal. -/
def ellipsis : JSString := [46, 46, 46]

/-- The helper `extractFirstSentence` for a string argument. -/
def extractFirstSentence (markdownText : JSString) : JSString :=
  if markdownText = [] then noTitle
  else
    match firstMatch (plainText markdownText) with
    | some m => m
    | none => (plainText markdownText).take 40 ++ ellipsis

/-! ## Cleaned text, as the specification words it

The definitions of this section do not come from the code.  They spell out "content with
every `#`, `*` and backquote removed, each run of line breaks replaced by one space, then
trimmed", so that what `extractFirstSentence` computes through `plainText` can be compared
with it. -/

/-- Specification side: the markup markers, as characters. -/
def markupMarkers : JSString := js "#*`"

/-- Specification side: the sentence-ending marks, as characters. -/
def sentenceMarks : JSString := js ".!?"

/-- Specification side: the code units that trimming strips, listed one by one: tab, line
feed, vertical tab, form feed, carriage return, space, no-break space, ogham space mark, the
eleven spaces from en quad to hair space, line separator, paragraph separator, narrow no-break
space, medium mathematical space, ideographic space, byte order mark. -/
def whiteSpace : List Nat :=
  [9, 10, 11, 12, 13, 32, 160, 5760, 8192, 8193, 8194, 8195, 8196, 8197, 8198, 8199, 8200,
   8201, 8202, 8232, 8233, 8239, 8287, 12288, 65279]

/-- Specification side: the content with every markup marker removed. -/
def withoutMarkers : JSString → JSString
  | [] => []
  | c :: cs => if c ∈ markupMarkers then withoutMarkers cs else c :: withoutMarkers cs

/-- Specification side: each run of line feeds replaced by one space.  A line feed that is
followed by another line feed disappears; the line feed that ends its run becomes the space. -/
def lineBreaksToSpaces : JSString → JSString
  | [] => []
  | [c] => if c = 10 then [32] else [c]
  | c :: d :: rest =>
    if c = 10 then
      if d = 10 then lineBreaksToSpaces (d :: rest) else 32 :: lineBreaksToSpaces (d :: rest)
    else c :: lineBreaksToSpaces (d :: rest)

/-- Specification side: white space removed from the front. -/
def stripLeading : JSString → JSString
  | [] => []
  | c :: cs => if c ∈ whiteSpace then stripLeading cs else c :: cs

/-- Specification side: white space removed from the back; a code unit stays when something
stays after it or when it is not white space. -/
def stripTrailing : JSString → JSString
  | [] => []
  | c :: cs =>
    match stripTrailing cs with
    | [] => if c ∈ whiteSpace then [] else [c]
    | d :: kept => c :: d :: kept

/-- Specification side: trimmed at both ends. -/
def trimmed (s : JSString) : JSString := stripTrailing (stripLeading s)

/-- Specification side: the cleaned text of a content. -/
def cleanedText (content : JSString) : JSString :=
  trimmed (lineBreaksToSpaces (withoutMarkers content))

/-- Specification side: a text with its leading sentence marks skipped. -/
def skipLeadingMarks : JSString → JSString
  | [] => []
  | c :: cs => if c ∈ sentenceMarks then skipLeadingMarks cs else c :: cs

/-! ## Data model -/

/-- An element of the `files` state, `{ file, id, preview }`.  The `File` object is opaque;
`id` comes from `crypto.randomUUID()` and `preview` from `URL.createObjectURL(file)`. -/
structure QueuedFile where
  file : Nat
  id : Nat
  preview : Nat
deriving DecidableEq, Repr

/-- An element of the `history` state, as built by `saveToHistory`.  The field `model` is
`none` when the catalog lookup `?.name` gave `undefined`. -/
structure HistoryEntry where
  id : Nat
  timestamp : Nat
  summary : JSString
  content : JSString
  model : Option JSString
deriving DecidableEq, Repr

/-- An element of the model catalog. -/
structure Model where
  id : JSString
  name : JSString
deriving DecidableEq, Repr

/-- The constant `AVAILABLE_MODELS`. -/
def AVAILABLE_MODELS : List Model :=
  [ { id := js "solar-pro3", name := js "Solar Pro 3 (Powerful MoE 102B)" },
    { id := js "solar-pro2", name := js "Solar Pro 2 (Reasoning High)" },
    { id := js "upstage/solar-1-mini-chat", name := js "Solar Mini (Efficient KO/EN)" } ]

/-- The form data of one `axios.post`: the queued `File` objects in order and the model id. -/
structure Request where
  files : List Nat
  model : JSString
deriving DecidableEq, Repr

/-- What the suspended part of `handleGenerate` reads after the `await`: the values of
`files`, `history` (through `saveToHistory`) and `selectedModel` of the render in which the
button was clicked. -/
structure Continuation where
  files : List QueuedFile
  history : List HistoryEntry
  selectedModel : JSString
deriving DecidableEq, Repr

/-- Outcome of the awaited `axios.post`: `response.data.result`, or a rejected promise. -/
inductive Response where
  | ok (result : JSString)
  | error
deriving DecidableEq, Repr

/-- Component state (first eight fields, one per `useState`) and browser state.
`uuids` and `urls` count the values handed out so far by `crypto.randomUUID` and
`URL.createObjectURL`, which never repeat a value; `clock` is the value of `new Date()`;
`revoked` logs the calls of `URL.revokeObjectURL`, oldest first; `storage` is the
`localStorage` item under `STORAGE_KEY`; `requests` logs the calls of `axios.post`, oldest
first; `alerts` counts the calls of `alert`; `inflight` holds the calls of `handleGenerate`
suspended at their `await`, oldest first. -/
structure AppState where
  files : List QueuedFile
  isLoading : Bool
  result : Option JSString
  isCopied : Bool
  selectedModel : JSString
  selectedImage : Option QueuedFile
  history : List HistoryEntry
  isHistoryOpen : Bool
  uuids : Nat
  urls : Nat
  clock : Nat
  revoked : List Nat
  storage : Option JSString
  requests : List Request
  alerts : Nat
  inflight : List Continuation
deriving DecidableEq, Repr

/-- The state after the first render, before the history-load effect: every `useState`
default, and a browser that has handed out nothing yet. -/
def initialState : AppState :=
  { files := [], isLoading := false, result := none, isCopied := false,
    selectedModel := js "solar-pro3", selectedImage := none, history := [],
    isHistoryOpen := false, uuids := 0, urls := 0, clock := 0, revoked := [],
    storage := none, requests := [], alerts := 0, inflight := [] }

/-! ## File queue -/

/-- The map of `addFiles`: each file gets the next fresh id and the next fresh object URL. -/
def processFiles (uuid url : Nat) : List Nat → List QueuedFile
  | [] => []
  | file :: rest => { file := file, id := uuid, preview := url } :: processFiles (uuid + 1) (url + 1) rest

/-- The callback `addFiles`. -/
def addFiles (newFiles : List Nat) (s : AppState) : AppState :=
  { s with
    files := s.files ++ processFiles s.uuids s.urls newFiles
    uuids := s.uuids + newFiles.length
    urls := s.urls + newFiles.length }

/-- The handler `removeFile`.  The updater passed to `setFiles` sees the current queue; the
test on `selectedImage` reads the current render. -/
def removeFile (idToRemove : Nat) (s : AppState) : AppState :=
  { s with
    revoked :=
      match s.files.find? (fun f => f.id == idToRemove) with
      | some targetFile => s.revoked ++ [targetFile.preview]
      | none => s.revoked
    files := s.files.filter (fun f => f.id != idToRemove)
    selectedImage :=
      match s.selectedImage with
      | some img => if img.id = idToRemove then none else some img
      | none => none }

/-! ## History log -/

/-- The function `saveToHistory`, with the `history` it closes over as an explicit argument
and `JSON.stringify` as the parameter `stringify`. -/
def saveToHistory (stringify : List HistoryEntry → JSString) (history : List HistoryEntry)
    (generatedText : JSString) (modelName : Option JSString) (s : AppState) : AppState :=
  let newEntry : HistoryEntry :=
    { id := s.uuids, timestamp := s.clock, summary := extractFirstSentence generatedText,
      content := generatedText, model := modelName }
  let newHistory := newEntry :: history
  { s with history := newHistory, storage := some (stringify newHistory), uuids := s.uuids + 1 }

/-- The handler `deleteHistoryItem`; it is called from the current render, so the `history`
it closes over is the current one. -/
def deleteHistoryItem (stringify : List HistoryEntry → JSString) (id : Nat) (s : AppState) :
    AppState :=
  let newHistory := s.history.filter (fun item => item.id != id)
  { s with history := newHistory, storage := some (stringify newHistory) }

/-- The handler `loadHistoryItem`. -/
def loadHistoryItem (item : HistoryEntry) (s : AppState) : AppState :=
  { s with result := some item.content, isHistoryOpen := false }

/-! ## Submit cycle -/

/-- The function `handleGenerate` up to its `await`. -/
def handleGenerate (s : AppState) : AppState :=
  if s.files.length = 0 then s
  else
    { s with
      isLoading := true
      result := none
      isCopied := false
      requests := s.requests ++ [{ files := s.files.map (fun (f : QueuedFile) => f.file), model := s.selectedModel }]
      inflight := s.inflight ++
        [{ files := s.files, history := s.history, selectedModel := s.selectedModel }] }

/-- The attribute `disabled` of the generate button. -/
def generateDisabled (s : AppState) : Bool := s.files.length == 0 || s.isLoading

/-- A click on the generate button: a disabled button dispatches no click, otherwise
`onClick` runs `handleGenerate`. -/
def clickGenerate (s : AppState) : AppState :=
  if generateDisabled s then s else handleGenerate s

/-- The lookup `AVAILABLE_MODELS.find(m => m.id === selectedModel)?.name`. -/
def modelNameOf (selectedModel : JSString) : Option JSString :=
  (AVAILABLE_MODELS.find? (fun m => m.id == selectedModel)).map (fun m => m.name)

/-- The function `handleGenerate` after its `await`, for the suspended call `k`: the rest of
the `try` block on a response, the `catch` block on a rejection, then the `finally` block. -/
def resume (stringify : List HistoryEntry → JSString) (k : Continuation) :
    Response → AppState → AppState
  | Response.ok generatedText, s =>
    let s1 := { s with result := some generatedText }
    let s2 := saveToHistory stringify k.history generatedText (modelNameOf k.selectedModel) s1
    let s3 := { s2 with revoked := s2.revoked ++ k.files.map (fun (f : QueuedFile) => f.preview), files := [] }
    { s3 with isLoading := false }
  | Response.error, s => { s with alerts := s.alerts + 1, isLoading := false }

/-- The service settles the `i`-th suspended call of `handleGenerate`. -/
def serviceResponds (stringify : List HistoryEntry → JSString) (i : Nat) (r : Response)
    (s : AppState) : AppState :=
  match s.inflight[i]? with
  | none => s
  | some k => resume stringify k r { s with inflight := s.inflight.eraseIdx i }

/-- What can happen to the mounted component. -/
inductive Event where
  | addFiles (newFiles : List Nat)
  | removeFile (id : Nat)
  | selectImage (fileData : QueuedFile)
  | closeImage
  | selectModel (id : JSString)
  | clickGenerate
  | serviceResponds (i : Nat) (r : Response)
  | openHistory
  | closeHistory
  | deleteHistoryItem (id : Nat)
  | loadHistoryItem (item : HistoryEntry)
deriving DecidableEq, Repr

/-- One event.  A thumbnail exists only for an element of `files`, and a history row only
for an element of `history`, so `selectImage` and `loadHistoryItem` on anything else cannot
be dispatched. -/
def step (stringify : List HistoryEntry → JSString) : Event → AppState → AppState
  | Event.addFiles newFiles, s => addFiles newFiles s
  | Event.removeFile id, s => removeFile id s
  | Event.selectImage fileData, s =>
    if fileData ∈ s.files then { s with selectedImage := some fileData } else s
  | Event.closeImage, s => { s with selectedImage := none }
  | Event.selectModel id, s => { s with selectedModel := id }
  | Event.clickGenerate, s => clickGenerate s
  | Event.serviceResponds i r, s => serviceResponds stringify i r s
  | Event.openHistory, s => { s with isHistoryOpen := true }
  | Event.closeHistory, s => { s with isHistoryOpen := false }
  | Event.deleteHistoryItem id, s => deleteHistoryItem stringify id s
  | Event.loadHistoryItem item, s => if item ∈ s.history then loadHistoryItem item s else s

/-- A sequence of events, first to last. -/
def run (stringify : List HistoryEntry → JSString) : List Event → AppState → AppState
  | [], s => s
  | e :: es, s => run stringify es (step stringify e s)

/-! ## History load at startup -/

/-- A value produced by `JSON.parse`. -/
inductive JSValue where
  | null
  | bool (b : Bool)
  | num (n : Int)
  | str (s : JSString)
  | arr (items : List JSValue)
  | obj (fields : List (JSString × JSValue))

/-- The first `useEffect`, as a function from the item read from `localStorage` (`none` for
`null`) to the value of the `history` state afterwards.  `parse` is `JSON.parse`, with
`Except.error` for a thrown `SyntaxError`; `history` is the value before the effect, which is
the `useState` default `[]`.  The empty string is falsy, so `if (saved)` skips it. -/
def loadHistory (parse : JSString → Except Unit JSValue) (saved : Option JSString)
    (history : JSValue) : JSValue :=
  match saved with
  | none => history
  | some text =>
    if text = [] then history
    else
      match parse text with
      | Except.ok value => value
      | Except.error _ => history

/-- Whether a value is an array. -/
def JSValue.isArray : JSValue → Bool
  | JSValue.arr _ => true
  | _ => false

/-! ## Concrete inputs -/

/-- A stand-in for `JSON.stringify`, used only to instantiate statements at concrete inputs:
the id, timestamp and content of every entry, concatenated. -/
def sampleStringify : List HistoryEntry → JSString
  | [] => []
  | e :: rest => e.id :: e.timestamp :: e.content ++ sampleStringify rest

/-- A stand-in for `JSON.parse` on the single text `42`, which it reads as the number 42. -/
def sampleParse (text : JSString) : Except Unit JSValue :=
  if text = js "42" then Except.ok (JSValue.num 42) else Except.error ()

/-- A queue of two files, as left by `addFiles [10, 11]` on the initial state. -/
def twoFilesQueued : AppState := addFiles [10, 11] initialState

/-- A first post is generated and saved, two more files are queued and submitted, and the
saved post (entry id 1) is deleted from the history while the second request is pending. -/
def deleteWhilePending : List Event :=
  [ Event.addFiles [10], Event.clickGenerate,
    Event.serviceResponds 0 (Response.ok (js "First post.")),
    Event.addFiles [11, 12], Event.clickGenerate,
    Event.openHistory, Event.deleteHistoryItem 1, Event.closeHistory ]

/-- The response to the second request of `deleteWhilePending`. -/
def secondResponse : Event := Event.serviceResponds 0 (Response.ok (js "# Title\nBody."))

/-- The entry saved by the first submit of `deleteWhilePending`. -/
def firstPost : HistoryEntry :=
  { id := 1, timestamp := 0, summary := js "First post.", content := js "First post.",
    model := some (js "Solar Pro 3 (Powerful MoE 102B)") }

/-- The entry saved by the second submit of `deleteWhilePending`. -/
def secondPost : HistoryEntry :=
  { id := 4, timestamp := 0, summary := js "Title Body.", content := js "# Title\nBody.",
    model := some (js "Solar Pro 3 (Powerful MoE 102B)") }

/-- One file is queued and submitted, then removed from the queue while the request is
pending, then the service answers. -/
def removeWhilePending : List Event :=
  [ Event.addFiles [10], Event.clickGenerate, Event.removeFile 0,
    Event.serviceResponds 0 (Response.ok (js "Done.")) ]

/-- One file is queued and submitted, a second file is queued while the request is pending,
then the service answers. -/
def addWhilePending : List Event :=
  [ Event.addFiles [10], Event.clickGenerate, Event.addFiles [11],
    Event.serviceResponds 0 (Response.ok (js "Done.")) ]

/-- One file is queued and submitted, its thumbnail is clicked while the request is pending,
then the service answers. -/
def enlargeWhilePending : List Event :=
  [ Event.addFiles [10], Event.clickGenerate,
    Event.selectImage { file := 10, id := 0, preview := 0 },
    Event.serviceResponds 0 (Response.ok (js "Done.")) ]

/-- A history of three entries with ids 1, 2, 3. -/
def threeEntries : AppState :=
  { initialState with
    history :=
      [ { id := 3, timestamp := 30, summary := js "C.", content := js "C.", model := none },
        { id := 2, timestamp := 20, summary := js "B.", content := js "B.", model := none },
        { id := 1, timestamp := 10, summary := js "A.", content := js "A.", model := none } ] }

/-! ## Summaries: lemmas -/

theorem takeWhile_run (run rest : JSString) (m : CodeUnit)
    (hrun : ∀ c ∈ run, isMark c = false) (hm : isMark m = true) :
    (run ++ m :: rest).takeWhile (fun c => !isMark c) = run := by
  induction run with
  | nil => simp [List.takeWhile, hm]
  | cons a t ih =>
    have ha : isMark a = false := hrun a (List.mem_cons_self a t)
    have ht : ∀ c ∈ t, isMark c = false := fun c hc => hrun c (List.mem_cons_of_mem a hc)
    simp [List.takeWhile, ha, ih ht]

theorem dropWhile_run (run rest : JSString) (m : CodeUnit)
    (hrun : ∀ c ∈ run, isMark c = false) (hm : isMark m = true) :
    (run ++ m :: rest).dropWhile (fun c => !isMark c) = m :: rest := by
  induction run with
  | nil => simp [List.dropWhile, hm]
  | cons a t ih =>
    have ha : isMark a = false := hrun a (List.mem_cons_self a t)
    have ht : ∀ c ∈ t, isMark c = false := fun c hc => hrun c (List.mem_cons_of_mem a hc)
    simp [List.dropWhile, ha, ih ht]

theorem matchHere_run (run rest : JSString) (m : CodeUnit) (hne : run ≠ [])
    (hrun : ∀ c ∈ run, isMark c = false) (hm : isMark m = true) :
    matchHere (run ++ m :: rest) = some (run ++ [m]) := by
  unfold matchHere
  rw [takeWhile_run run rest m hrun hm, dropWhile_run run rest m hrun hm]
  cases run with
  | nil => exact absurd rfl hne
  | cons a t => rfl

theorem matchHere_mark (c : CodeUnit) (cs : JSString) (hc : isMark c = true) :
    matchHere (c :: cs) = none := by
  simp [matchHere, List.takeWhile, hc]

theorem firstMatch_run (lead run rest : JSString) (m : CodeUnit)
    (hlead : ∀ c ∈ lead, isMark c = true) (hne : run ≠ [])
    (hrun : ∀ c ∈ run, isMark c = false) (hm : isMark m = true) :
    firstMatch (lead ++ (run ++ m :: rest)) = some (run ++ [m]) := by
  induction lead with
  | nil =>
    cases run with
    | nil => exact absurd rfl hne
    | cons a t =>
      have h := matchHere_run (a :: t) rest m hne hrun hm
      simp only [List.nil_append, List.cons_append] at h ⊢
      simp only [firstMatch, h]
  | cons a t ih =>
    have ha : isMark a = true := hlead a (List.mem_cons_self a t)
    have ht : ∀ c ∈ t, isMark c = true := fun c hc => hlead c (List.mem_cons_of_mem a hc)
    simp only [List.cons_append, firstMatch, matchHere_mark a _ ha]
    exact ih ht

theorem matchHere_no_mark (s : JSString) (h : ∀ c ∈ s, isMark c = false) :
    matchHere s = none := by
  have h1 : s.dropWhile (fun c => !isMark c) = [] := by
    rw [List.dropWhile_eq_nil_iff]
    intro c hc
    simp [h c hc]
  unfold matchHere
  rw [h1]
  cases s.takeWhile (fun c => !isMark c) <;> rfl

theorem firstMatch_no_mark (s : JSString) (h : ∀ c ∈ s, isMark c = false) :
    firstMatch s = none := by
  induction s with
  | nil => rfl
  | cons a t ih =>
    simp only [firstMatch, matchHere_no_mark (a :: t) h]
    exact ih (fun c hc => h c (List.mem_cons_of_mem a hc))

theorem split_at_first_mark (t : JSString) (h : ∃ c ∈ t, isMark c = true) :
    ∃ run m rest, t = run ++ m :: rest ∧ (∀ c ∈ run, isMark c = false) ∧ isMark m = true := by
  induction t with
  | nil => obtain ⟨c, hc, _⟩ := h; cases hc
  | cons a u ih =>
    by_cases ha : isMark a = true
    · exact ⟨[], a, u, rfl, by simp, ha⟩
    · have ha2 : isMark a = false := by simpa using ha
      obtain ⟨c, hc, hcm⟩ := h
      have hcu : c ∈ u := by
        rcases List.mem_cons.mp hc with rfl | hcu
        · rw [ha2] at hcm; cases hcm
        · exact hcu
      obtain ⟨run, m, rest, hu, hrun, hm⟩ := ih ⟨c, hcu, hcm⟩
      refine ⟨a :: run, m, rest, by simp [hu], ?_, hm⟩
      intro d hd
      rcases List.mem_cons.mp hd with rfl | hd2
      · exact ha2
      · exact hrun d hd2

theorem lead_marks_split (s : JSString) :
    s = s.takeWhile isMark ++ s.dropWhile isMark ∧ (∀ c ∈ s.takeWhile isMark, isMark c = true) :=
  ⟨(List.takeWhile_append_dropWhile isMark s).symm, fun _ hc => (List.mem_takeWhile_imp hc)⟩

theorem dropWhile_head_not_mark (s : JSString) (a : CodeUnit) (u : JSString)
    (h : s.dropWhile isMark = a :: u) : isMark a = false := by
  have := List.head_dropWhile_not isMark s
  have h2 := this (by rw [h]; simp)
  simp only [h, List.head_cons] at h2
  exact h2

theorem plainText_nil : plainText [] = [] := rfl

/-! ## Cleaned text: the code computes what the specification words -/

theorem markupMarkers_eq : markupMarkers = [35, 42, 96] := by decide

theorem sentenceMarks_eq : sentenceMarks = [46, 33, 63] := by decide

theorem mem_markupMarkers (c : CodeUnit) : c ∈ markupMarkers ↔ isMarkup c = true := by
  simp [markupMarkers_eq, isMarkup, or_assoc]

theorem mem_sentenceMarks (c : CodeUnit) : c ∈ sentenceMarks ↔ isMark c = true := by
  simp [sentenceMarks_eq, isMark, or_assoc]

theorem not_mem_sentenceMarks (c : CodeUnit) : c ∉ sentenceMarks ↔ isMark c = false := by
  rw [mem_sentenceMarks]
  cases isMark c <;> simp

theorem mem_whiteSpace (c : Nat) : c ∈ whiteSpace ↔ isTrimmable c = true := by
  simp only [whiteSpace, isTrimmable, List.mem_cons, List.mem_singleton, Bool.or_eq_true,
    Bool.and_eq_true, beq_iff_eq, decide_eq_true_eq, List.mem_nil_iff, or_false]
  omega

theorem withoutMarkers_eq (s : JSString) : withoutMarkers s = removeMarkup s := by
  induction s with
  | nil => rfl
  | cons c cs ih =>
    by_cases hc : c ∈ markupMarkers
    · have hb : isMarkup c = true := (mem_markupMarkers c).mp hc
      simp only [withoutMarkers, if_pos hc, ih]
      simp [removeMarkup, hb]
    · have hb : isMarkup c = false := by
        cases hm : isMarkup c
        · rfl
        · exact absurd ((mem_markupMarkers c).mpr hm) hc
      simp only [withoutMarkers, if_neg hc, ih]
      simp [removeMarkup, hb]

theorem lineBreaksToSpaces_cons (t : JSString) :
    lineBreaksToSpaces (10 :: t) = 32 :: collapseFrom true t ∧
    ∀ c : CodeUnit, c ≠ 10 → lineBreaksToSpaces (c :: t) = c :: collapseFrom false t := by
  induction t with
  | nil =>
    refine ⟨rfl, ?_⟩
    intro c hc
    simp [lineBreaksToSpaces, collapseFrom, hc]
  | cons d r ih =>
    obtain ⟨ih10, ihc⟩ := ih
    by_cases hd : d = 10
    · subst hd
      refine ⟨?_, ?_⟩
      · simp only [lineBreaksToSpaces, if_true, ih10]
        simp [collapseFrom]
      · intro c hc
        simp only [lineBreaksToSpaces, if_neg hc, ih10]
        simp [collapseFrom]
    · refine ⟨?_, ?_⟩
      · simp only [lineBreaksToSpaces, if_true, if_neg hd, ihc d hd]
        simp [collapseFrom, hd]
      · intro c hc
        simp only [lineBreaksToSpaces, if_neg hc, ihc d hd]
        simp [collapseFrom, hd]

theorem lineBreaksToSpaces_eq (s : JSString) : lineBreaksToSpaces s = collapseNewlines s := by
  cases s with
  | nil => rfl
  | cons c t =>
    by_cases hc : c = 10
    · subst hc
      rw [(lineBreaksToSpaces_cons t).1]
      simp [collapseNewlines, collapseFrom]
    · rw [(lineBreaksToSpaces_cons t).2 c hc]
      simp [collapseNewlines, collapseFrom, hc]

theorem stripLeading_eq (s : JSString) : stripLeading s = s.dropWhile isTrimmable := by
  induction s with
  | nil => rfl
  | cons c cs ih =>
    by_cases hc : c ∈ whiteSpace
    · have hb : isTrimmable c = true := (mem_whiteSpace c).mp hc
      simp only [stripLeading, if_pos hc, ih]
      simp [List.dropWhile, hb]
    · have hb : isTrimmable c = false := by
        cases hm : isTrimmable c
        · rfl
        · exact absurd ((mem_whiteSpace c).mpr hm) hc
      simp only [stripLeading, if_neg hc]
      simp [List.dropWhile, hb]

theorem dropWhile_concat (p : CodeUnit → Bool) (l : JSString) (c : CodeUnit) :
    (l ++ [c]).dropWhile p =
      match l.dropWhile p with
      | [] => if p c = true then [] else [c]
      | d :: kept => d :: kept ++ [c] := by
  induction l with
  | nil =>
    cases hp : p c <;> simp [List.dropWhile, hp]
  | cons a t ih =>
    cases ha : p a
    · simp [List.dropWhile, ha]
    · simp only [List.cons_append, List.dropWhile, ha]
      exact ih

theorem stripTrailing_eq (s : JSString) :
    stripTrailing s = (s.reverse.dropWhile isTrimmable).reverse := by
  induction s with
  | nil => rfl
  | cons c cs ih =>
    rw [List.reverse_cons, dropWhile_concat]
    cases hd : cs.reverse.dropWhile isTrimmable with
    | nil =>
      have hcs : stripTrailing cs = [] := by rw [ih, hd]; rfl
      simp only [stripTrailing, hcs]
      by_cases hc : c ∈ whiteSpace
      · have hb : isTrimmable c = true := (mem_whiteSpace c).mp hc
        simp [hc, hb]
      · have hb : isTrimmable c = false := by
          cases hm : isTrimmable c
          · rfl
          · exact absurd ((mem_whiteSpace c).mpr hm) hc
        simp [hc, hb]
    | cons d kept =>
      have hcs : stripTrailing cs = (d :: kept).reverse := by rw [ih, hd]
      simp only [stripTrailing, hcs]
      cases hr : (d :: kept).reverse with
      | nil => simp at hr
      | cons x xs =>
        simp only [List.reverse_append, List.reverse_cons, List.reverse_nil, List.nil_append,
          List.singleton_append]
        rw [List.reverse_cons] at hr
        rw [hr]

theorem cleanedText_eq (content : JSString) : cleanedText content = plainText content := by
  simp only [cleanedText, trimmed, plainText, trim, withoutMarkers_eq, lineBreaksToSpaces_eq,
    stripLeading_eq, stripTrailing_eq]

theorem skipLeadingMarks_eq (s : JSString) : skipLeadingMarks s = s.dropWhile isMark := by
  induction s with
  | nil => rfl
  | cons c cs ih =>
    by_cases hc : c ∈ sentenceMarks
    · have hb : isMark c = true := (mem_sentenceMarks c).mp hc
      simp only [skipLeadingMarks, if_pos hc, ih]
      simp [List.dropWhile, hb]
    · have hb : isMark c = false := (not_mem_sentenceMarks c).mp hc
      simp only [skipLeadingMarks, if_neg hc]
      simp [List.dropWhile, hb]

/-! ## Summaries: theorems -/

/-- C1 (as amended): when the cleaned text (markup markers removed, runs of line feeds turned
into one space, trimmed), after any leading sentence marks are skipped, still contains a
sentence mark, `extractFirstSentence` returns the part of that remainder up to and including
its first mark, and this part has at least one character before the mark. -/
theorem extractFirstSentence_first_sentence (content : JSString)
    (h : ∃ c ∈ skipLeadingMarks (cleanedText content), c ∈ sentenceMarks) :
    ∃ run m rest, skipLeadingMarks (cleanedText content) = run ++ m :: rest ∧ run ≠ [] ∧
      (∀ c ∈ run, c ∉ sentenceMarks) ∧ m ∈ sentenceMarks ∧
      extractFirstSentence content = run ++ [m] := by
  rw [skipLeadingMarks_eq, cleanedText_eq] at h ⊢
  have h2 : ∃ c ∈ (plainText content).dropWhile isMark, isMark c = true := by
    obtain ⟨c, hc, hm⟩ := h
    exact ⟨c, hc, (mem_sentenceMarks c).mp hm⟩
  obtain ⟨run, m, rest, hsplit, hrun, hm⟩ := split_at_first_mark _ h2
  have hne : run ≠ [] := by
    intro hnil
    subst hnil
    have := dropWhile_head_not_mark (plainText content) m rest (by simpa using hsplit)
    rw [hm] at this
    cases this
  refine ⟨run, m, rest, hsplit, hne, fun c hc => (not_mem_sentenceMarks c).mpr (hrun c hc),
    (mem_sentenceMarks m).mpr hm, ?_⟩
  obtain ⟨hfull, hlead⟩ := lead_marks_split (plainText content)
  have hcontent : content ≠ [] := by
    intro hnil
    subst hnil
    rw [plainText_nil] at hsplit
    cases run <;> cases hsplit
  have hmatch : firstMatch (plainText content) = some (run ++ [m]) := by
    rw [hfull, hsplit]
    exact firstMatch_run _ run rest m hlead hne hrun hm
  simp only [extractFirstSentence, if_neg hcontent, hmatch]

/-- Witness of C1: a heading with emphasis and a line feed is cleaned to
`Hello world. More text.` and summarized as `Hello world.`; the plain sentence of the
specification gives the same summary. -/
theorem extractFirstSentence_first_sentence_witness :
    cleanedText (js "## **Hello**\nworld. More text. ") = js "Hello world. More text." ∧
    extractFirstSentence (js "## **Hello**\nworld. More text. ") = js "Hello world." ∧
    extractFirstSentence (js "Hello world. More text.") = js "Hello world." ∧
    extractFirstSentence (js "*Really?* Yes! It is.") = js "Really?" ∧
    ∃ run m rest,
      skipLeadingMarks (cleanedText (js "## **Hello**\nworld. More text. ")) = run ++ m :: rest ∧
      run ≠ [] ∧ (∀ c ∈ run, c ∉ sentenceMarks) ∧ m ∈ sentenceMarks ∧
      extractFirstSentence (js "## **Hello**\nworld. More text. ") = run ++ [m] :=
  ⟨by decide, by decide, by decide, by decide,
   extractFirstSentence_first_sentence (js "## **Hello**\nworld. More text. ")
     ⟨46, by decide, by decide⟩⟩

/-- Counterexample to C1 as stated: the content `# .a` + line feed + `b.` has the cleaned text
`.a b.`, which contains a sentence mark, but the summary `a b.` is not the part of the cleaned
text that ends at its first mark (that part is the single character `.`). -/
theorem extractFirstSentence_leading_mark :
    ¬ ∀ content : JSString, (∃ c ∈ cleanedText content, c ∈ sentenceMarks) →
      ∃ run m rest, cleanedText content = run ++ m :: rest ∧ (∀ c ∈ run, c ∉ sentenceMarks) ∧
        m ∈ sentenceMarks ∧ extractFirstSentence content = run ++ [m] := by
  intro hall
  obtain ⟨run, m, rest, hsplit, hrun, _, hres⟩ :=
    hall (js "# .a\nb.") ⟨46, by decide, by decide⟩
  have hp : cleanedText (js "# .a\nb.") = [46, 97, 32, 98, 46] := by decide
  have he : extractFirstSentence (js "# .a\nb.") = [97, 32, 98, 46] := by decide
  rw [hp] at hsplit
  rw [he] at hres
  cases run with
  | nil => simp at hres
  | cons a t =>
    simp only [List.cons_append, List.cons.injEq] at hsplit hres
    have h46 : (46 : Nat) = 97 := hsplit.1.trans hres.1.symm
    exact absurd h46 (by decide)

/-- C2 (the code at the failing inputs): the content `###`, and a content of emphasis markers,
line feeds and blanks, have an empty cleaned text, yet their summary is the bare ellipsis and
not the no-title placeholder that the empty content gets. -/
theorem markup_only_content_gets_ellipsis :
    cleanedText (js "###") = [] ∧
    extractFirstSentence (js "###") = js "..." ∧
    extractFirstSentence (js "###") ≠ js "제목 없음" ∧
    cleanedText (js " **\n\n** ") = [] ∧
    extractFirstSentence (js " **\n\n** ") = js "..." ∧
    extractFirstSentence (js "") = js "제목 없음" := by
  decide

/-- C3: when the cleaned text (markup markers removed, runs of line feeds turned into one
space, trimmed) is non-empty and has no sentence mark, the summary is the first 40 code units
of the cleaned text (all of it when shorter) followed by three full stops. -/
theorem extractFirstSentence_no_mark (content : JSString) (hne : cleanedText content ≠ [])
    (hno : ∀ c ∈ cleanedText content, c ∉ sentenceMarks) :
    extractFirstSentence content = (cleanedText content).take 40 ++ js "..." := by
  rw [cleanedText_eq] at hne hno ⊢
  have hno2 : ∀ c ∈ plainText content, isMark c = false :=
    fun c hc => (not_mem_sentenceMarks c).mp (hno c hc)
  have hcontent : content ≠ [] := by
    intro hnil
    subst hnil
    exact hne plainText_nil
  have hell : js "..." = ellipsis := by decide
  simp only [extractFirstSentence, if_neg hcontent, firstMatch_no_mark _ hno2, hell]

/-- Witness of C3: a heading with emphasis, line feeds and surrounding blanks is cleaned to a
51-character text without a sentence mark and summarized as its first 40 characters and the
ellipsis; the 48-character word of the specification and a short heading behave alike. -/
theorem extractFirstSentence_no_mark_witness :
    cleanedText (js " # **No**\n\nSentenceEndingHere AtAllPastFortyCharactersLong \n")
      = js "No SentenceEndingHere AtAllPastFortyCharactersLong" ∧
    extractFirstSentence (js " # **No**\n\nSentenceEndingHere AtAllPastFortyCharactersLong \n")
      = js "No SentenceEndingHere AtAllPastFortyChar..." ∧
    extractFirstSentence (js "NoSentenceEndingHereAtAllPastFortyCharactersLong")
      = js "NoSentenceEndingHereAtAllPastFortyCharac..." ∧
    extractFirstSentence (js "# Title") = js "Title..." ∧
    extractFirstSentence (js " # **No**\n\nSentenceEndingHere AtAllPastFortyCharactersLong \n")
      = (cleanedText
          (js " # **No**\n\nSentenceEndingHere AtAllPastFortyCharactersLong \n")).take 40
        ++ js "..." :=
  ⟨by decide, by decide, by decide, by decide,
   extractFirstSentence_no_mark
     (js " # **No**\n\nSentenceEndingHere AtAllPastFortyCharactersLong \n")
     (by decide) (by decide)⟩

/-! ## Submit cycle: theorems -/

theorem handleGenerate_of_queue (s : AppState) (hq : s.files ≠ []) :
    handleGenerate s =
      { s with
        isLoading := true
        result := none
        isCopied := false
        requests := s.requests ++
          [{ files := s.files.map (fun (f : QueuedFile) => f.file), model := s.selectedModel }]
        inflight := s.inflight ++
          [{ files := s.files, history := s.history, selectedModel := s.selectedModel }] } := by
  have hlen : ¬ s.files.length = 0 := by
    intro h0
    exact hq (List.length_eq_zero.mp h0)
  simp only [handleGenerate, if_neg hlen]

theorem clickGenerate_of_enabled (s : AppState) (hq : s.files ≠ []) (hl : s.isLoading = false) :
    clickGenerate s = handleGenerate s := by
  have hlen : ¬ s.files.length = 0 := by
    intro h0
    exact hq (List.length_eq_zero.mp h0)
  simp [clickGenerate, generateDisabled, hlen, hl]

theorem eraseIdx_concat_length {α : Type} (l : List α) (a : α) :
    (l ++ [a]).eraseIdx l.length = l := by
  induction l with
  | nil => rfl
  | cons b t ih => simp [List.eraseIdx, ih]

/-- C4: a click on the generate button with an empty queue or with a submission pending
changes nothing at all (no field of the state, no request); `handleGenerate` itself returns at
once on an empty queue; with a non-empty queue and nothing pending the click sets the pending
flag and issues exactly one request, carrying the queued files in order and the selected
model, and leaves the queue and the history as they were. -/
theorem clickGenerate_guard (s : AppState) :
    ((s.files = [] ∨ s.isLoading = true) → clickGenerate s = s) ∧
    (s.files = [] → handleGenerate s = s) ∧
    (s.files ≠ [] → s.isLoading = false →
      (clickGenerate s).isLoading = true ∧
      (clickGenerate s).requests = s.requests ++
        [{ files := s.files.map (fun (f : QueuedFile) => f.file), model := s.selectedModel }] ∧
      (clickGenerate s).inflight.length = s.inflight.length + 1 ∧
      (clickGenerate s).files = s.files ∧
      (clickGenerate s).history = s.history ∧
      (clickGenerate s).storage = s.storage) := by
  refine ⟨?_, ?_, ?_⟩
  · intro h
    rcases h with h | h
    · simp [clickGenerate, generateDisabled, h]
    · simp [clickGenerate, generateDisabled, h]
  · intro h
    simp [handleGenerate, h]
  · intro hq hl
    rw [clickGenerate_of_enabled s hq hl, handleGenerate_of_queue s hq]
    simp

/-- Witness of C4: the click is inert on the initial state (empty queue) and on a loading
state with two queued files, and submits once from the idle state with two queued files. -/
theorem clickGenerate_guard_witness :
    clickGenerate initialState = initialState ∧
    clickGenerate { twoFilesQueued with isLoading := true }
      = { twoFilesQueued with isLoading := true } ∧
    ((clickGenerate twoFilesQueued).isLoading = true ∧
      (clickGenerate twoFilesQueued).requests = twoFilesQueued.requests ++
        [{ files := twoFilesQueued.files.map (fun (f : QueuedFile) => f.file),
           model := twoFilesQueued.selectedModel }] ∧
      (clickGenerate twoFilesQueued).inflight.length = twoFilesQueued.inflight.length + 1 ∧
      (clickGenerate twoFilesQueued).files = twoFilesQueued.files ∧
      (clickGenerate twoFilesQueued).history = twoFilesQueued.history ∧
      (clickGenerate twoFilesQueued).storage = twoFilesQueued.storage) :=
  ⟨(clickGenerate_guard initialState).1 (Or.inl (by decide)),
   (clickGenerate_guard { twoFilesQueued with isLoading := true }).1 (Or.inr (by decide)),
   (clickGenerate_guard twoFilesQueued).2.2 (by decide) (by decide)⟩

/-- C5 (the code at the failing input): with the saved post deleted while the second request
is pending, the history is empty just before the response, and after the response it holds
the new entry followed by the deleted one, which is also what is written to storage. -/
theorem stale_history_restores_deleted_entry (stringify : List HistoryEntry → JSString) :
    (run stringify deleteWhilePending initialState).history = [] ∧
    (run stringify deleteWhilePending initialState).storage = some (stringify []) ∧
    (run stringify (deleteWhilePending ++ [secondResponse]) initialState).history
      = [secondPost, firstPost] ∧
    (run stringify (deleteWhilePending ++ [secondResponse]) initialState).storage
      = some (stringify [secondPost, firstPost]) :=
  ⟨rfl, rfl, rfl, rfl⟩

/-- C6: from a state with a non-empty queue and nothing pending, a click on the generate
button followed by an error response ends not loading and with no result, with the history,
the storage item, the queue and the log of revocations exactly as before the click. -/
theorem failed_submit_cycle (stringify : List HistoryEntry → JSString) (s : AppState)
    (hq : s.files ≠ []) (hl : s.isLoading = false) :
    (serviceResponds stringify s.inflight.length Response.error (clickGenerate s)).isLoading
      = false ∧
    (serviceResponds stringify s.inflight.length Response.error (clickGenerate s)).result
      = none ∧
    (serviceResponds stringify s.inflight.length Response.error (clickGenerate s)).history
      = s.history ∧
    (serviceResponds stringify s.inflight.length Response.error (clickGenerate s)).storage
      = s.storage ∧
    (serviceResponds stringify s.inflight.length Response.error (clickGenerate s)).files
      = s.files ∧
    (serviceResponds stringify s.inflight.length Response.error (clickGenerate s)).revoked
      = s.revoked ∧
    (serviceResponds stringify s.inflight.length Response.error (clickGenerate s)).inflight
      = s.inflight := by
  rw [clickGenerate_of_enabled s hq hl, handleGenerate_of_queue s hq]
  simp only [serviceResponds, List.getElem?_concat_length, resume, eraseIdx_concat_length]
  simp

/-- Witness of C6: the failed cycle from the idle state with two queued files. -/
theorem failed_submit_cycle_witness :
    (serviceResponds sampleStringify twoFilesQueued.inflight.length Response.error
      (clickGenerate twoFilesQueued)).isLoading = false ∧
    (serviceResponds sampleStringify twoFilesQueued.inflight.length Response.error
      (clickGenerate twoFilesQueued)).result = none ∧
    (serviceResponds sampleStringify twoFilesQueued.inflight.length Response.error
      (clickGenerate twoFilesQueued)).history = twoFilesQueued.history ∧
    (serviceResponds sampleStringify twoFilesQueued.inflight.length Response.error
      (clickGenerate twoFilesQueued)).storage = twoFilesQueued.storage ∧
    (serviceResponds sampleStringify twoFilesQueued.inflight.length Response.error
      (clickGenerate twoFilesQueued)).files = twoFilesQueued.files ∧
    (serviceResponds sampleStringify twoFilesQueued.inflight.length Response.error
      (clickGenerate twoFilesQueued)).revoked = twoFilesQueued.revoked ∧
    (serviceResponds sampleStringify twoFilesQueued.inflight.length Response.error
      (clickGenerate twoFilesQueued)).inflight = twoFilesQueued.inflight :=
  failed_submit_cycle sampleStringify twoFilesQueued (by decide) (by decide)

/-- C8 (the code at the failing inputs): a file removed while its request is pending has its
handle revoked twice; a file added while a request is pending leaves the queue at the response
without its handle ever being revoked. -/
theorem stale_queue_revokes_twice_or_never (stringify : List HistoryEntry → JSString) :
    (run stringify removeWhilePending initialState).revoked = [0, 0] ∧
    (run stringify removeWhilePending initialState).files = [] ∧
    (run stringify (addWhilePending.take 3) initialState).files
      = [{ file := 10, id := 0, preview := 0 }, { file := 11, id := 1, preview := 1 }] ∧
    (run stringify addWhilePending initialState).files = [] ∧
    (run stringify addWhilePending initialState).revoked = [0] :=
  ⟨rfl, rfl, rfl, rfl, rfl⟩

/-- C9 (the code at the failing input): a file enlarged while its request is pending is still
the selected image after the successful response, although the queue is empty and its handle
is revoked. -/
theorem selection_survives_queue_clear (stringify : List HistoryEntry → JSString) :
    (run stringify enlargeWhilePending initialState).selectedImage
      = some { file := 10, id := 0, preview := 0 } ∧
    (run stringify enlargeWhilePending initialState).files = [] ∧
    (run stringify enlargeWhilePending initialState).revoked = [0] :=
  ⟨rfl, rfl, rfl⟩

/-! ## History log: theorems -/

theorem filter_id_ne_self (l : List HistoryEntry) (id : Nat) (h : ∀ e ∈ l, e.id ≠ id) :
    l.filter (fun item => item.id != id) = l := by
  rw [List.filter_eq_self]
  intro e he
  simpa using h e he

/-- C10: on a history with pairwise distinct ids, `deleteHistoryItem` removes the entry with
the given id and keeps all others in place and in order; without such an entry the history is
unchanged; in both cases the storage item is the serialization of the whole resulting
history. -/
theorem deleteHistoryItem_spec (stringify : List HistoryEntry → JSString) (s : AppState)
    (id : Nat) (hd : (s.history.map (fun e => e.id)).Nodup) :
    (∀ pre e post, s.history = pre ++ e :: post → e.id = id →
      (deleteHistoryItem stringify id s).history = pre ++ post) ∧
    ((∀ e ∈ s.history, e.id ≠ id) → (deleteHistoryItem stringify id s).history = s.history) ∧
    (deleteHistoryItem stringify id s).storage
      = some (stringify (deleteHistoryItem stringify id s).history) := by
  refine ⟨?_, ?_, rfl⟩
  · intro pre e post hsplit hid
    rw [hsplit, List.map_append, List.map_cons] at hd
    have hmid := List.nodup_middle.mp hd
    have hnot : e.id ∉ List.map (fun e => e.id) pre ++ List.map (fun e => e.id) post :=
      (List.nodup_cons.mp hmid).1
    have hpre : ∀ x ∈ pre, x.id ≠ id := by
      intro x hx hxe
      apply hnot
      rw [List.mem_append]
      left
      rw [hid, ← hxe]
      exact List.mem_map_of_mem (fun e => e.id) hx
    have hpost : ∀ x ∈ post, x.id ≠ id := by
      intro x hx hxe
      apply hnot
      rw [List.mem_append]
      right
      rw [hid, ← hxe]
      exact List.mem_map_of_mem (fun e => e.id) hx
    simp only [deleteHistoryItem, hsplit, List.filter_append, List.filter_cons,
      filter_id_ne_self pre id hpre, filter_id_ne_self post id hpost]
    simp [hid]
  · intro hno
    simp only [deleteHistoryItem]
    exact filter_id_ne_self s.history id hno

/-- Witness of C10: deleting id 2 from a history with ids 3, 2, 1. -/
theorem deleteHistoryItem_spec_witness :
    (threeEntries.history.map (fun e => e.id)).Nodup ∧
    (deleteHistoryItem sampleStringify 2 threeEntries).history.map (fun e => e.id) = [3, 1] ∧
    ((∀ pre e post, threeEntries.history = pre ++ e :: post → e.id = 2 →
      (deleteHistoryItem sampleStringify 2 threeEntries).history = pre ++ post) ∧
    ((∀ e ∈ threeEntries.history, e.id ≠ 2) →
      (deleteHistoryItem sampleStringify 2 threeEntries).history = threeEntries.history) ∧
    (deleteHistoryItem sampleStringify 2 threeEntries).storage
      = some (sampleStringify (deleteHistoryItem sampleStringify 2 threeEntries).history)) :=
  ⟨by decide, by decide, deleteHistoryItem_spec sampleStringify threeEntries 2 (by decide)⟩

/-! ## History load: theorems -/

theorem loadHistory_absent (parse : JSString → Except Unit JSValue) :
    loadHistory parse none (JSValue.arr []) = JSValue.arr [] ∧
    loadHistory parse (some []) (JSValue.arr []) = JSValue.arr [] :=
  ⟨rfl, rfl⟩

theorem loadHistory_unparseable (parse : JSString → Except Unit JSValue) (text : JSString)
    (h : parse text = Except.error ()) :
    loadHistory parse (some text) (JSValue.arr []) = JSValue.arr [] := by
  by_cases ht : text = []
  · simp [loadHistory, ht]
  · simp [loadHistory, ht, h]

/-- C7 (the code at the failing input): when the stored text is non-empty and `JSON.parse`
accepts it with a value that is not an array, the history state becomes that value, which is
not the empty sequence. -/
theorem loadHistory_keeps_non_array (parse : JSString → Except Unit JSValue)
    (text : JSString) (value : JSValue) (hne : text ≠ [])
    (hparse : parse text = Except.ok value) (hval : value.isArray = false) :
    loadHistory parse (some text) (JSValue.arr []) = value ∧
    loadHistory parse (some text) (JSValue.arr []) ≠ JSValue.arr [] := by
  have hload : loadHistory parse (some text) (JSValue.arr []) = value := by
    simp [loadHistory, hne, hparse]
  refine ⟨hload, ?_⟩
  rw [hload]
  intro harr
  rw [harr] at hval
  cases hval

/-- Witness of C7: the stored text `42`, read as the number 42. -/
theorem loadHistory_keeps_non_array_witness :
    loadHistory sampleParse (some (js "42")) (JSValue.arr []) = JSValue.num 42 ∧
    loadHistory sampleParse (some (js "42")) (JSValue.arr []) ≠ JSValue.arr [] :=
  loadHistory_keeps_non_array sampleParse (js "42") (JSValue.num 42) (by decide) rfl rfl

end Ghostwriter
